import Mathlib

/-!
Shallow embedding of the capacitor-measurement firmware source
`src/firmware/cap.c` (ESR measurement, large- and small-range capacitance
estimators, measurement orchestration), together with proofs about it.

Modelling conventions:
* machine integers are `Nat` (unsigned) or `Int` (signed), reduced modulo
  `2 ^ w` exactly where the AVR C code can wrap (on this 8-bit target,
  `int` is 16 bits wide, so `uint16_t`/`int16_t` arithmetic wraps at
  `2 ^ 16` and mixed signed/unsigned 16-bit operations are performed as
  unsigned 16-bit operations);
* hardware reads (ADC conversions, timer flags, capture registers) and
  calls into other translation units (`GetFactor`, probe bookkeeping) are
  supplied through small environment structures, making every embedded
  function a pure function of its environment;
* C division by zero is undefined behaviour; the embedding inherits
  Lean's `x / 0 = 0` convention in those (unreachable) corners.
-/

namespace CapC

/-- Reduce to an unsigned 16-bit value (C conversion to `uint16_t`). -/
def u16 (n : Nat) : Nat := n % 65536

/-- Reduce to an unsigned 32-bit value (C conversion to `uint32_t`). -/
def u32 (n : Nat) : Nat := n % 4294967296

/-- Reinterpret an integer as a signed 16-bit value (C conversion to
`int16_t`, two's complement). -/
def toI16 (z : Int) : Int := (z + 32768) % 65536 - 32768

/-- Reinterpret an integer as a signed 8-bit value (C conversion to
`int8_t`, two's complement). -/
def toI8 (z : Int) : Int := (z + 128) % 256 - 128

/-- The unsigned 16-bit pattern of an integer (C conversion of a signed
value to `unsigned int` on the 16-bit-`int` target). -/
def u16ofInt (z : Int) : Nat := (z % 65536).toNat

/-- Modelled from the spec: `CmpValue` (declared in `functions.h`; its
definition is in a translation unit outside the given source) compares two
non-negative scaled values `v1 * 10 ^ s1` and `v2 * 10 ^ s2`, returning
`-1`, `0` or `1` for smaller, equal, larger. -/
def cmpValue (v1 : Nat) (s1 : Int) (v2 : Nat) (s2 : Int) : Int :=
  let m := min s1 s2
  let a := v1 * 10 ^ (s1 - m).toNat
  let b := v2 * 10 ^ (s2 - m).toNat
  if a < b then -1 else if b < a then 1 else 0

/-- The capacitor record `Capacitor_Type` (the fields `cap.c` uses: probe
pins, scaled capacitance, raw and compensated value, leakage current).
The optional `U_loss` field (`SW_C_VLOSS` builds) is not modelled. -/
structure CapRecord where
  A : Nat
  B : Nat
  Scale : Int
  Raw : Nat
  Value : Nat
  ILeakValue : Nat
  ILeakScale : Int
  deriving DecidableEq, Repr

/-! ## ESR measurement (`MeasureESR`, the `SW_ESR` variant, cap.c:118) -/

/-- Environment of one `MeasureESR` run: whether `DischargeProbes` and
`SetUpDelayTimer` succeed, and the four ADC conversions of each of the 255
iterations of the measurement loop (`U_1`..`U_4`: positive/negative pulse,
unloaded/loaded; `ADCW` is a 10-bit conversion result stored in a
`uint16_t`). -/
structure ESREnv where
  dischargeOk : Bool
  delayOk : Bool
  u1 : Nat → Nat
  u2 : Nat → Nat
  u3 : Nat → Nat
  u4 : Nat → Nat

/-- The accumulation loop of `MeasureESR` (cap.c:229-367): 255 iterations
adding the unloaded readings into `Sum_1` and the loaded readings into
`Sum_2`, both `uint32_t` initialised to 1 (cap.c:166-167). The
charge-runaway mitigation pulses (cap.c:237-261) only drive the probe
hardware and do not touch the accumulated values; the conversions
themselves enter through the environment. -/
def esrSums (env : ESREnv) : Nat × Nat :=
  (List.range 255).foldl
    (fun s i =>
      (u32 (u32 (s.1 + u16 (env.u1 i)) + u16 (env.u3 i)),
       u32 (u32 (s.2 + u16 (env.u2 i)) + u16 (env.u4 i))))
    (1, 1)

/-- Post-loop processing of `MeasureESR` (cap.c:378-422): when
`Sum_2 > Sum_1`, compute `ESR = (RiL * 10) * (Sum_2 - Sum_1) / Sum_1` in
`uint32_t` (the factor `NV.RiL * 10` is a 16-bit multiplication), truncate
to `uint16_t`, subtract the zero offset `NV.RZero` when it is exceeded,
otherwise report 0 for capacitors above 1000 uF and keep the
`UINT16_MAX` sentinel for the rest. With `R_MULTIOFFSET` builds, `RZero`
is the entry of `NV.RZero[]` selected for the probe pair. -/
def esrProcess (capValue : Nat) (capScale : Int) (riL rZero s1 s2 : Nat) : Nat :=
  if s1 < s2 then
    if u16 rZero < u16 (u32 (u16 (riL * 10) * (s2 - s1)) / s1) then
      u16 (u32 (u16 (riL * 10) * (s2 - s1)) / s1) - u16 rZero
    else if 0 < cmpValue capValue capScale 1000 (-6) then 0
    else 65535
  else 65535

/-- `MeasureESR` (cap.c:118-435, `SW_ESR` variant): guard for a capacitor
of at least 10 nF, discharge, delay-timer setup, the 255-iteration
measurement loop and the final processing. Returns the ESR in units of
0.01 Ohm, or the sentinel `UINT16_MAX = 65535` on any problem. -/
def measureESR (env : ESREnv) (capValue : Nat) (capScale : Int)
    (riL rZero : Nat) : Nat :=
  if cmpValue capValue capScale 10 (-9) < 0 then 65535
  else if env.dischargeOk = false then 65535
  else if env.delayOk = false then 65535
  else esrProcess capValue capScale riL rZero (esrSums env).1 (esrSums env).2

/-- A concrete `MeasureESR` environment: every unloaded conversion reads
10, every loaded conversion reads 20, so `Sum_1 = 5101`, `Sum_2 = 10201`. -/
def esrEnvA : ESREnv :=
  { dischargeOk := true
    delayOk := true
    u1 := fun _ => 10
    u2 := fun _ => 20
    u3 := fun _ => 10
    u4 := fun _ => 20 }

/-- A concrete `MeasureESR` environment in which every conversion reads
the same value, so the loaded sum equals the unloaded sum. -/
def esrEnvB : ESREnv :=
  { dischargeOk := true
    delayOk := true
    u1 := fun _ => 7
    u2 := fun _ => 7
    u3 := fun _ => 7
    u4 := fun _ => 7 }

/-! ## Small-range capacitance estimator (`SmallCap`, cap.c:1178) -/

/-- The processing-overhead adjustment of the combined tick count
(cap.c:1324): `if (Raw > 2) Raw -= 2;` with `Raw : uint32_t`; the
subtraction is shown with its unsigned 32-bit wrap semantics
(`x - 2` on `uint32_t` is `x + 2^32 - 2` reduced modulo `2^32`). -/
def rawTickAdjust (raw : Nat) : Nat :=
  if 2 < raw then u32 (raw + 4294967294) else raw

/-- The capacitance computation of `SmallCap` (cap.c:1319-1381): combine
the captured counter value `Ticks` and the overflow counter `Ticks2` into
a 32-bit tick count, subtract the 2-tick processing overhead, rescale from
pF to nF when the count would overflow the later multiplication, multiply
with the `GetFactor` table factor, divide by `CPU_FREQ / 10000`, apply the
optional `CAP_FACTOR_SMALL` compensation (compiled only when the constant
is non-zero), and subtract the stored zero offset `NV.CapZero` on the pF
scale. Returns `(Scale, Raw, Value)` as written into the record; with
`CAP_MULTIOFFSET` builds, `capZero` is the entry of `NV.CapZero[]`
selected for the probe pair. -/
def smallCapCalc (ticks ticks2 factor cpuFreq capFactorSmall capZero : Nat) :
    Int × Nat × Nat :=
  let raw0 := ticks ||| (ticks2 <<< 16)
  let raw1 := rawTickAdjust raw0
  let scale : Int := if 4294967 < raw1 then -9 else -12
  let raw2 := if 4294967 < raw1 then raw1 / 1000 else raw1
  let raw3 := u32 (raw2 * factor)
  let raw4 := raw3 / (cpuFreq / 10000)
  let raw5 := if capFactorSmall ≠ 0
    then u32 (raw4 * 1000) / (1000 - capFactorSmall) else raw4
  let value := if scale = -12 then
      (if capZero ≤ raw5 then raw5 - capZero else 0)
    else raw5
  (scale, raw5, value)

/-- The local bandgap estimate `Ticks` of `SmallCap`'s self-adjustment
(cap.c:1413-1441): starts as `Cfg.Bandgap`; when the two readings of the
capacitor voltage (`uVcc` with the supply reference, `uBg` with the
bandgap reference) differ by more than 4, the code adds the low byte of
the measured capacitance `Value` reinterpreted as `int8_t`
(cap.c:1440, `Ticks += (int8_t)Value;`) in unsigned 16-bit arithmetic. -/
def bandgapLocal (uVcc uBg bandgap value : Nat) : Nat :=
  let off1 := toI16 ((u16 uVcc : Int) - (u16 uBg : Int))
  if off1 < -4 ∨ 4 < off1 then u16ofInt ((u16 bandgap : Int) + toI8 (value : Int))
  else u16 bandgap

/-- The comparator-offset value derived by `SmallCap`'s self-adjustment
(cap.c:1453): `Offset = U_c - Ticks` in unsigned 16-bit arithmetic,
reinterpreted as `int16_t`. -/
def compOffsetDerived (u_c uVcc uBg bandgap value : Nat) : Int :=
  toI16 ((u16 u_c : Int) - (bandgapLocal uVcc uBg bandgap value : Int))

/-- `SmallCap`'s self-adjustment of the stored offsets (cap.c:1392-1460,
compiled when `HW_ADJUST_CAP` is not defined): update `NV.RefOffset` by a
proportional correction when the two reference readings disagree by more
than 4 (`TempLong = Offset * Ticks / Ticks2`, C `int32_t` division
truncating toward zero), then store the derived comparator offset into
`NV.CompOffset` only when it lies strictly within the -50..50 mV range
(cap.c:1456-1459). Returns `(RefOffset, CompOffset)` after the routine. -/
def smallCapAdjust (u_c uVcc uBg bandgap value : Nat)
    (refOffset compOffset : Int) : Int × Int :=
  let off1 := toI16 ((u16 uVcc : Int) - (u16 uBg : Int))
  let refOffset' := if off1 < -4 ∨ 4 < off1 then
      toI8 (refOffset + toI8 (Int.tdiv (off1 * (u16 bandgap : Int)) (u16 uBg : Int)))
    else refOffset
  let off2 := compOffsetDerived u_c uVcc uBg bandgap value
  let compOffset' := if -50 < off2 ∧ off2 < 50 then off2 else compOffset
  (refOffset', compOffset')

/-- The timer loop of `SmallCap` (cap.c:1261-1279) and `RefCap`
(cap.c:1772-1790): read the Timer1 flags (`flags i` is the i-th read as
the pair (input-capture, overflow)); stop with a capture when the
input-capture flag is set, count overflows in the `uint16_t` counter
`Ticks2` otherwise, and stop without a capture when `Ticks2` reaches the
overflow budget `CPU_FREQ / 5000`. The C loop is `while (1)`; `fuel`
bounds the number of flag reads the model inspects and the result is
`none` when the bound is hit, `some (captured, Ticks2, last flags read)`
otherwise. -/
def timerLoop (flags : Nat → Bool × Bool) (budget : Nat) :
    Nat → Nat → Nat → Option (Bool × Nat × (Bool × Bool))
  | 0, _, _ => none
  | fuel + 1, i, t2 =>
    if (flags i).1 then some (true, t2, flags i)
    else if (flags i).2 then
      if u16 (t2 + 1) = budget then some (false, u16 (t2 + 1), flags i)
      else timerLoop flags budget fuel (i + 1) (u16 (t2 + 1))
    else timerLoop flags budget fuel (i + 1) t2

/-- The calibration values `SmallCap` reads and writes: `NV.CapZero`,
`NV.CompOffset`, `NV.RefOffset` of the persisted calibration store and
the runtime bandgap estimate `Cfg.Bandgap`. -/
structure Calib where
  capZero : Nat
  compOffset : Int
  refOffset : Int
  bandgap : Nat
  deriving DecidableEq, Repr

/-- Environment of one `SmallCap` run: whether `DischargeProbes`
succeeds, the successive Timer1 flag reads of the timer loop, the capture
register `ICR1`, the counter `TCNT1` at the missed-overflow check, the
ADC reads (`U_c` and the two self-adjustment readings), the `GetFactor`
table interpolation, and the probe identifiers. -/
structure SCEnv where
  dischargeOk : Bool
  flags : Nat → Bool × Bool
  icr : Nat
  tcnt : Nat
  u_c : Nat
  uVcc : Nat
  uBg : Nat
  factor : Nat → Nat
  id1 : Nat
  id2 : Nat

/-- `SmallCap` (cap.c:1178-1550): discharge guard, the comparator-gated
timer loop, the missed-overflow catch (cap.c:1291-1295), the timeout
check `Ticks2 >= CPU_FREQ / 5000` (cap.c:1311), and on success the
capacitance computation, the record write (cap.c:1376-1381) and the
opportunistic self-adjustment (window 100 nF - 20 uF, cap.c:1392-1393).
Returns `none` when the model's fuel bound is hit inside the `while (1)`
timer loop, otherwise `some (Flag, record, calibration store)`. -/
def smallCap (env : SCEnv) (nv : Calib) (cpuFreq capFactorSmall fuel : Nat)
    (cap : CapRecord) : Option (Nat × CapRecord × Calib) :=
  if env.dischargeOk = false then some (0, cap, nv)
  else
    match timerLoop env.flags (cpuFreq / 5000) fuel 0 0 with
    | none => none
    | some (_, t2a, lastFlags) =>
      let ticks := u16 env.icr
      let t2 := if ticks < u16 env.tcnt ∧ lastFlags.2 then u16 (t2a + 1) else t2a
      if cpuFreq / 5000 ≤ t2 then some (1, cap, nv)
      else
        let r := smallCapCalc ticks t2
          (env.factor (u16ofInt ((nv.bandgap : Int) + nv.compOffset)))
          cpuFreq capFactorSmall nv.capZero
        let cap' : CapRecord := { cap with
          A := env.id2
          B := env.id1
          Scale := r.1
          Raw := r.2.1
          Value := r.2.2 }
        let nv' := if (r.1 = -12 ∧ 100000 ≤ r.2.2) ∨ (r.1 = -9 ∧ r.2.2 ≤ 20000) then
            let a := smallCapAdjust env.u_c env.uVcc env.uBg nv.bandgap r.2.2
              nv.refOffset nv.compOffset
            { nv with refOffset := a.1, compOffset := a.2 }
          else nv
        some (3, cap', nv')

/-! ## Reference-capacitor adjustment (`RefCap`, cap.c:1701, builds with
`HW_ADJUST_CAP`) -/

/-- The local bandgap estimate of `RefCap`'s offset derivation
(cap.c:1847-1869): as in `SmallCap`, but the value added to `Ticks` is the
computed correction itself (`(int8_t)Value` with
`Value = Offset * Ticks / Ticks2`, cap.c:1863-1868). -/
def refBandgapLocal (uVcc uBg bandgap : Nat) : Nat :=
  let off1 := toI16 ((u16 uVcc : Int) - (u16 uBg : Int))
  if off1 < -4 ∨ 4 < off1 then
    u16ofInt ((u16 bandgap : Int) + toI8 (Int.tdiv (off1 * (u16 bandgap : Int)) (u16 uBg : Int)))
  else u16 bandgap

/-- The comparator-offset value derived by `RefCap` (cap.c:1882). -/
def refCompOffsetDerived (u_c uVcc uBg bandgap : Nat) : Int :=
  toI16 ((u16 u_c : Int) - (refBandgapLocal uVcc uBg bandgap : Int))

/-- `RefCap`'s offset updates (cap.c:1824-1889): reference-trim update and
the gated store of the derived comparator offset into `NV.CompOffset`
(cap.c:1884-1888). Returns `(RefOffset, CompOffset, Cfg.Bandgap)`. -/
def refCapAdjust (u_c uVcc uBg bandgap : Nat) (refOffset compOffset : Int) :
    Int × Int × Nat :=
  let off1 := toI16 ((u16 uVcc : Int) - (u16 uBg : Int))
  let corr := toI8 (Int.tdiv (off1 * (u16 bandgap : Int)) (u16 uBg : Int))
  let refOffset' := if off1 < -4 ∨ 4 < off1 then toI8 (refOffset + corr) else refOffset
  let bandgap' := if off1 < -4 ∨ 4 < off1 then refBandgapLocal uVcc uBg bandgap else bandgap
  let off2 := refCompOffsetDerived u_c uVcc uBg bandgap
  let compOffset' := if -50 < off2 ∧ off2 < 50 then off2 else compOffset
  (refOffset', compOffset', bandgap')

/-! ## Large-range capacitance estimator (`LargeCap`, cap.c:881) -/

/-- Environment of one `LargeCap` call. The `Bool` argument of the
per-attempt readings is the pulse mode of the attempt (`true` for
`PULL_10MS`, `false` for `PULL_1MS` after the `goto large_cap` restart):
whether `DischargeProbes` succeeds, the two zero-offset readings
(cap.c:937-938), the probe-1 voltage after each charging pulse
(cap.c:953, indexed by the pulse number starting at 1), the
self-discharge readings (`U_Drop` start, the last read of the delay loop,
and the leakage pair, cap.c:1008-1055), the `GetFactor` interpolation for
the large-cap table, and the probe identifiers. -/
structure LCEnv where
  dischargeOk : Bool → Bool
  zero1 : Bool → Nat
  zero2 : Bool → Nat
  readU : Bool → Nat → Nat
  dropStart : Bool → Nat
  leakLast : Bool → Nat
  leakStart : Bool → Nat
  leakEnd : Bool → Nat
  factor : Nat → Nat
  id1 : Nat
  id2 : Nat

/-- The zero offset `U_Zero` of a `LargeCap` attempt (cap.c:937-938):
the difference of the two probe readings, computed in unsigned 16-bit
arithmetic and kept in an `int16_t`. -/
def lcUZero (env : LCEnv) (m10 : Bool) : Int :=
  toI16 ((u16 (env.zero1 m10) : Int) - (u16 (env.zero2 m10) : Int))

/-- The zero-offset correction of the charge loop (cap.c:956-959):
`U_Cap > U_Zero` compares the `uint16_t` reading with `U_Zero` converted
to `unsigned int`, subtracting on success and clamping to 0 otherwise. -/
def corrCap (u : Nat) (uZero : Int) : Nat :=
  if u16ofInt uZero < u16 u then u16 u - u16ofInt uZero else 0

/-- The charge loop of `LargeCap` (cap.c:947-971): charge with up to 500
pulses; each iteration increments `Pulses`, reads the offset-corrected
capacitor voltage, and stops when 126 pulses leave the voltage below
75 mV, when 300 mV are reached, or when the 500-pulse budget is spent.
The loop leaves at most 500 iterations, so fuel 500 started at pulse 0
never runs out; returns `(Pulses, U_Cap)`. -/
def chargeGo (env : LCEnv) (m10 : Bool) (uZero : Int) : Nat → Nat → Nat × Nat
  | 0, p => (p, 0)
  | fuel + 1, p =>
    let p' := p + 1
    let u := corrCap (env.readU m10 p') uZero
    if (p' = 126 ∧ u < 75) ∨ 300 ≤ u ∨ p' = 500 then (p', u)
    else chargeGo env m10 uZero fuel p'

/-- The charge loop of a `LargeCap` attempt, started with `Pulses = 0`
and the attempt's zero offset. -/
def chargeLoop (env : LCEnv) (m10 : Bool) : Nat × Nat :=
  chargeGo env m10 (lcUZero env m10) 500 0

/-- The rescaling loop `while (Value > 800000) { Value /= 10; Scale++; }`
of `LargeCap`'s leakage computation (cap.c:1135-1139). -/
def rescale800k (v : Nat) (s : Int) : Nat × Int :=
  if h : 800000 < v then rescale800k (v / 10) (s + 1) else (v, s)
termination_by v
decreasing_by exact Nat.div_lt_self (by omega) (by omega)

/-- The rescaling loop `while (Value > UINT16_MAX) { Value /= 10; Scale++; }`
of `LargeCap`'s leakage computation (cap.c:1150-1154). -/
def rescale65535 (v : Nat) (s : Int) : Nat × Int :=
  if h : 65535 < v then rescale65535 (v / 10) (s + 1) else (v, s)
termination_by v
decreasing_by exact Nat.div_lt_self (by omega) (by omega)

/-- The tail of a `LargeCap` attempt once the charge loop succeeded with
`Flag` still 3 (cap.c:1005-1158): measure the self-discharge drop
(`Flag = 0` when it exceeds 100 mV), measure the leakage drop, compute
the capacitance from the interpolated table factor, the pulse count, the
pulse length and the model-specific compensation factors
(`CAP_FACTOR_LARGE` in 10 ms mode, `CAP_FACTOR_MID` in 1 ms mode), write
the record, and derive the leakage current. Returns `(Flag, record)`. -/
def largeCapFinish (env : LCEnv) (capFactorLarge capFactorMid : Nat)
    (m10 : Bool) (pulses uCap : Nat) (cap : CapRecord) : Nat × CapRecord :=
  let uDrop0 := u16 (env.dropStart m10)
  let uLeak1 := u16 (env.leakLast m10)
  let uDrop := if uLeak1 < uDrop0 then uDrop0 - uLeak1 else 0
  if 100 < uDrop then (0, cap)
  else
    let uLeak := if u16 (env.leakEnd m10) < u16 (env.leakStart m10)
      then u16 (env.leakStart m10) - u16 (env.leakEnd m10) else 0
    let raw0 := u32 (env.factor (u16 (uCap + uDrop)) * pulses)
    let raw1 := if m10 then u32 (raw0 * 10) else raw0
    let scale1 : Int := if 4294967 < raw1 then -6 else -9
    let raw2 := if 4294967 < raw1 then raw1 / 1000 else raw1
    let value1 := u32 (raw2 * 1000)
    let value2 := if m10 then value1 / (1000 - capFactorLarge)
      else value1 / (1000 - capFactorMid)
    let r3 := rescale800k value2 scale1
    let s4 := if m10 then r3.2 else r3.2 + 1
    let r5 := rescale65535 (u32 (r3.1 * uLeak) / 1000) s4
    (3, { cap with
          A := env.id2
          B := env.id1
          Scale := scale1
          Raw := raw2
          Value := value2
          ILeakValue := u16 r5.1
          ILeakScale := r5.2 })

/-- Outcome of one pass over the `large_cap:` block: either the
`goto large_cap` restart (cap.c:987) or a final result
`(Flag, Pulses of the attempt, record)`. -/
inductive LCOut where
  | restart : LCOut
  | done : Nat → Nat → CapRecord → LCOut
  deriving DecidableEq, Repr

/-- One pass over the `large_cap:` block of `LargeCap` (cap.c:918-1158):
discharge guard (`return 0`), zero offset, charge loop, the
small-capacitance check (`Pulses == 1 && U_Cap > 1300`, cap.c:981) which
restarts in 10 ms mode and sets `Flag = 2` in 1 ms mode, the
too-slow-charging check (`U_Cap < 300` gives `Flag = 1`, cap.c:975-978),
and the `Flag == 3` tail. -/
def largeCapAttempt (env : LCEnv) (capFactorLarge capFactorMid : Nat)
    (m10 : Bool) (cap : CapRecord) : LCOut :=
  if env.dischargeOk m10 = false then .done 0 0 cap
  else if (chargeLoop env m10).1 = 1 ∧ 1300 < (chargeLoop env m10).2 then
    (if m10 then .restart else .done 2 (chargeLoop env m10).1 cap)
  else if (chargeLoop env m10).2 < 300 then .done 1 (chargeLoop env m10).1 cap
  else
    .done (largeCapFinish env capFactorLarge capFactorMid m10
        (chargeLoop env m10).1 (chargeLoop env m10).2 cap).1
      (chargeLoop env m10).1
      (largeCapFinish env capFactorLarge capFactorMid m10
        (chargeLoop env m10).1 (chargeLoop env m10).2 cap).2

/-- `LargeCap` (cap.c:881-1161): start in 10 ms-pulse mode; the only
backward branch is the `goto large_cap` restart, after which the mode is
1 ms pulses. Returns `(Flag, number of attempts, Pulses of the deciding
attempt, record)`; the `(0, 2, 0, _)` arm is dead code (a 1 ms-mode pass
never restarts, proved below). -/
def largeCap (env : LCEnv) (capFactorLarge capFactorMid : Nat)
    (cap : CapRecord) : Nat × Nat × Nat × CapRecord :=
  match largeCapAttempt env capFactorLarge capFactorMid true cap with
  | .restart =>
    match largeCapAttempt env capFactorLarge capFactorMid false cap with
    | .restart => (0, 2, 0, cap)
    | .done f p r => (f, 2, p, r)
  | .done f p r => (f, 1, p, r)

/-! ## Measurement orchestration (`MeasureCap`, cap.c:1563) -/

/-- A resistor record (`Resistor_Type` fields used by `MeasureCap`). -/
structure RRec where
  A : Nat
  B : Nat
  Value : Nat
  Scale : Int
  deriving DecidableEq, Repr

/-- The resistor scan of `MeasureCap` (cap.c:1595-1617): walk the
recorded resistors while the counter is below `Check.Resistors`; on a
probe-pair match with a value below 10 Ohm set the counter to 99 (so it
leaves the loop as 100); the loop's final counter decides whether the
measurement proceeds (`TempByte != 100` returns early). The pointer walks
one record per iteration, so the records are consumed as a list; `count`
is `Check.Resistors` (at most 3 in the firmware, so the counter jump to
100 always leaves the loop). -/
def resistorScan (p1 p2 count : Nat) : List RRec → Nat → Nat
  | [], t => t
  | r :: rest, t =>
    if t < count then
      let t' := if ((r.A = p1 ∧ r.B = p2) ∨ (r.A = p2 ∧ r.B = p1)) ∧
          cmpValue r.Value r.Scale 10 0 = -1 then 99 else t
      resistorScan p1 p2 count rest (t' + 1)
    else t

/-- Environment of one `MeasureCap` call: the shared classification
`Check.Found`, the recorded resistors (`Resistors[0..Check.Resistors)`),
and the result of `SearchDiode(Probe1, Probe2)` as the forward voltage
`V_f` of the matching diode, when one exists. -/
structure MCEnv where
  found : Nat
  resistors : List RRec
  diode : Option Nat

/-- The estimator phase and classification update of `MeasureCap`
(cap.c:1639-1671): run the large-cap estimator, fall back to the
small-cap estimator when it reports "capacitance too low" (2), then
promote the classification to capacitor when plausible. The two
estimators enter as oracle functions from the record to
`(Flag, record)`. -/
def measureCapRun (env : MCEnv) (compResistor compDiode compCapacitor : Nat)
    (runLarge runSmall : CapRecord → Nat × CapRecord) (cap0 : CapRecord) :
    CapRecord × Bool × Bool × Nat :=
  let lr := runLarge cap0
  let sr := if lr.1 = 2 then ((runSmall lr.2).1, (runSmall lr.2).2, true)
    else (lr.1, lr.2, false)
  let cap2 := sr.2.1
  let found' :=
    if env.found < compDiode then
      if env.found = compResistor then
        (if -6 ≤ cap2.Scale then compCapacitor else env.found)
      else if -12 < cap2.Scale ∨ 5 ≤ cap2.Value then compCapacitor
      else env.found
    else env.found
  (cap2, true, sr.2.2, found')

/-- `MeasureCap` (cap.c:1563-1685): reset the capacitor record to its
defaults (`A = 0`, `B = 0`, `Scale = -12`, `Raw = 0`, `Value = 0`,
`I_leak_Value = 0`, cap.c:1577-1582), skip on a pre-existing error
classification, skip unless a resistor classification found a sub-10-Ohm
match, skip when a diode with a forward voltage below 1500 mV was already
recorded between the probes (cap.c:1625-1632), and otherwise run the
estimators. The `COMP_*` enumerators live in a header outside the given
source and enter as abstract numerals. Returns the record, whether the
large- and small-cap estimators ran, and the final `Check.Found`. -/
def measureCap (env : MCEnv)
    (compError compResistor compDiode compCapacitor : Nat)
    (runLarge runSmall : CapRecord → Nat × CapRecord)
    (p1 p2 : Nat) (cap : CapRecord) : CapRecord × Bool × Bool × Nat :=
  let cap0 : CapRecord := { cap with
    A := 0
    B := 0
    Scale := -12
    Raw := 0
    Value := 0
    ILeakValue := 0 }
  if env.found = compError then (cap0, false, false, env.found)
  else if env.found = compResistor ∧
      resistorScan p1 p2 env.resistors.length env.resistors 0 ≠ 100 then
    (cap0, false, false, env.found)
  else
    match env.diode with
    | some vf =>
      if vf < 1500 then (cap0, false, false, env.found)
      else measureCapRun env compResistor compDiode compCapacitor runLarge runSmall cap0
    | none => measureCapRun env compResistor compDiode compCapacitor runLarge runSmall cap0

/-! ## Concrete environments, used to evaluate the embedded functions on
closed inputs -/

/-- A capacitor record at the reset defaults of `MeasureCap`. -/
def capRecA : CapRecord :=
  { A := 0
    B := 0
    Scale := -12
    Raw := 0
    Value := 0
    ILeakValue := 0
    ILeakScale := 0 }

/-- A capacitor record with every field away from its reset default. -/
def capRecB : CapRecord :=
  { A := 5
    B := 6
    Scale := -6
    Raw := 77
    Value := 88
    ILeakValue := 9
    ILeakScale := 3 }

/-- A calibration store with typical values. -/
def calibA : Calib :=
  { capZero := 35
    compOffset := 0
    refOffset := 0
    bandgap := 1001 }

/-- A `SmallCap` environment whose Timer1 flag reads always show an
overflow and never a capture, so the overflow budget is always hit. -/
def scEnvA : SCEnv :=
  { dischargeOk := true
    flags := fun _ => (false, true)
    icr := 500
    tcnt := 0
    u_c := 1000
    uVcc := 1000
    uBg := 1000
    factor := fun _ => 700
    id1 := 1
    id2 := 2 }

/-- A `LargeCap` environment in which every voltage reading is 0 mV. -/
def lcEnvA : LCEnv :=
  { dischargeOk := fun _ => true
    zero1 := fun _ => 0
    zero2 := fun _ => 0
    readU := fun _ _ => 0
    dropStart := fun _ => 0
    leakLast := fun _ => 0
    leakStart := fun _ => 0
    leakEnd := fun _ => 0
    factor := fun _ => 900
    id1 := 1
    id2 := 2 }

/-- A `MeasureCap` environment in which a diode with a 700 mV forward
voltage was already recorded between the probe pair. -/
def mcEnvA : MCEnv :=
  { found := 10
    resistors := []
    diode := some 700 }

/-! ## Theorems -/

set_option maxRecDepth 16000

/-- C8: in every successful `SmallCap` computation the scale is -12 or
-9; the stored zero-offset capacitance is subtracted from the computed
value only on the pF scale (-12), clamped at 0; on the nF scale (-9) no
zero-offset subtraction happens at all and `Value` equals `Raw`. -/
theorem smallCapCalc_offset_only_pF
    (ticks ticks2 factor cpuFreq capFactorSmall capZero : Nat) :
    ((smallCapCalc ticks ticks2 factor cpuFreq capFactorSmall capZero).1 = -12 ∨
      (smallCapCalc ticks ticks2 factor cpuFreq capFactorSmall capZero).1 = -9) ∧
    ((smallCapCalc ticks ticks2 factor cpuFreq capFactorSmall capZero).1 = -9 →
      (smallCapCalc ticks ticks2 factor cpuFreq capFactorSmall capZero).2.2 =
        (smallCapCalc ticks ticks2 factor cpuFreq capFactorSmall capZero).2.1) ∧
    ((smallCapCalc ticks ticks2 factor cpuFreq capFactorSmall capZero).1 = -12 →
      (smallCapCalc ticks ticks2 factor cpuFreq capFactorSmall capZero).2.2 =
        if capZero ≤ (smallCapCalc ticks ticks2 factor cpuFreq capFactorSmall capZero).2.1
        then (smallCapCalc ticks ticks2 factor cpuFreq capFactorSmall capZero).2.1 - capZero
        else 0) := by
  unfold smallCapCalc
  by_cases h : 4294967 < rawTickAdjust (ticks ||| (ticks2 <<< 16)) <;>
    simp [h]

/-- C10: the 2-tick processing-overhead subtraction of `SmallCap` is
guarded by `Raw > 2`, so for any pair of 16-bit counter values the
adjusted 32-bit tick count never wraps below zero: it is the plain
truncated subtraction, and never exceeds the combined count. -/
theorem rawTickAdjust_no_underflow (ticks ticks2 : Nat)
    (h1 : ticks < 65536) (h2 : ticks2 < 65536) :
    rawTickAdjust (ticks ||| (ticks2 <<< 16)) ≤ ticks ||| (ticks2 <<< 16) ∧
    (2 < ticks ||| (ticks2 <<< 16) →
      rawTickAdjust (ticks ||| (ticks2 <<< 16)) = (ticks ||| (ticks2 <<< 16)) - 2) ∧
    (ticks ||| (ticks2 <<< 16) ≤ 2 →
      rawTickAdjust (ticks ||| (ticks2 <<< 16)) = ticks ||| (ticks2 <<< 16)) := by
  have hx : ticks < 2 ^ 16 := by omega
  have hy : ticks2 < 2 ^ 16 := by omega
  have h32 : ticks ||| (ticks2 <<< 16) < 4294967296 := by
    have h := Nat.append_lt hx hy
    rw [Nat.lor_comm]
    omega
  refine ⟨?_, ?_, ?_⟩ <;> unfold rawTickAdjust u32 <;> split <;> omega

/-- C10 witness: concrete 16-bit counter values `Ticks = 100`,
`Ticks2 = 3`. -/
theorem rawTickAdjust_no_underflow_witness :
    rawTickAdjust (100 ||| (3 <<< 16)) ≤ 100 ||| (3 <<< 16) ∧
    (2 < 100 ||| (3 <<< 16) →
      rawTickAdjust (100 ||| (3 <<< 16)) = (100 ||| (3 <<< 16)) - 2) ∧
    (100 ||| (3 <<< 16) ≤ 2 →
      rawTickAdjust (100 ||| (3 <<< 16)) = 100 ||| (3 <<< 16)) :=
  rawTickAdjust_no_underflow 100 3 (by decide) (by decide)

/-- C5 counterexample: for the concrete `SmallCap` inputs
`Ticks = 0`, `Ticks2 = 66`, factor 600, 20 MHz clock, no small-cap
compensation and a stored `CapZero` of 2000, the tick count rescales to
the nF scale (-9), the stored zero-offset capacitance exceeds the
computed value, and yet the output `Value` is the unclamped 1297, not 0:
the claim's unconditional clamp does not hold on the code. -/
theorem zeroOffset_clamp_counterexample :
    (smallCapCalc 0 66 600 20000000 0 2000).1 = -9 ∧
    (smallCapCalc 0 66 600 20000000 0 2000).2.2 < 2000 ∧
    (smallCapCalc 0 66 600 20000000 0 2000).2.2 ≠ 0 := by
  decide

/-- C5 (amended): zero-offset subtraction never yields a wrapped
negative value. In `SmallCap`, on the pF scale (-12), whenever the
stored zero-offset capacitance exceeds the computed value the output
`Value` is exactly 0 (on the rescaled nF scale no offset subtraction is
performed). In `MeasureESR`, whenever the raw ESR does not exceed the
stored `RZero`, the result is 0 for a capacitor above 1000 uF and the
`UINT16_MAX` sentinel otherwise, never a wrapped subtraction. -/
theorem zeroOffset_clamp_amended :
    (∀ ticks ticks2 factor cpuFreq capFactorSmall capZero : Nat,
      (smallCapCalc ticks ticks2 factor cpuFreq capFactorSmall capZero).1 = -12 →
      (smallCapCalc ticks ticks2 factor cpuFreq capFactorSmall capZero).2.1 < capZero →
      (smallCapCalc ticks ticks2 factor cpuFreq capFactorSmall capZero).2.2 = 0) ∧
    (∀ (capValue : Nat) (capScale : Int) (riL rZero s1 s2 : Nat),
      u16 (u32 (u16 (riL * 10) * (s2 - s1)) / s1) ≤ u16 rZero →
      esrProcess capValue capScale riL rZero s1 s2 =
        if s1 < s2 ∧ 0 < cmpValue capValue capScale 1000 (-6) then 0 else 65535) := by
  constructor
  · intro ticks ticks2 factor cpuFreq capFactorSmall capZero hscale hlt
    unfold smallCapCalc at *
    by_cases h : 4294967 < rawTickAdjust (ticks ||| (ticks2 <<< 16))
    · simp [h] at hscale
    · simp [h] at hlt ⊢
      omega
  · intro capValue capScale riL rZero s1 s2 hle
    unfold esrProcess
    by_cases hs : s1 < s2
    · rw [if_pos hs, if_neg (by omega)]
      by_cases hc : 0 < cmpValue capValue capScale 1000 (-6) <;> simp [hs, hc]
    · simp [hs]

/-- C7: the comparator-offset correction derived by the small-range
estimator's self-calibration (and by `RefCap` in `HW_ADJUST_CAP` builds)
is stored into the calibration store's `CompOffset` exactly when it lies
strictly inside the -50..50 mV window; outside the window `CompOffset`
is left unchanged, so a changed `CompOffset` is always within 50 mV of
zero. -/
theorem compOffset_gate :
    (∀ u_c uVcc uBg bandgap value : Nat, ∀ refOffset compOffset : Int,
      ((-50 < compOffsetDerived u_c uVcc uBg bandgap value ∧
          compOffsetDerived u_c uVcc uBg bandgap value < 50) →
        (smallCapAdjust u_c uVcc uBg bandgap value refOffset compOffset).2 =
          compOffsetDerived u_c uVcc uBg bandgap value) ∧
      (¬ (-50 < compOffsetDerived u_c uVcc uBg bandgap value ∧
          compOffsetDerived u_c uVcc uBg bandgap value < 50) →
        (smallCapAdjust u_c uVcc uBg bandgap value refOffset compOffset).2 = compOffset) ∧
      ((smallCapAdjust u_c uVcc uBg bandgap value refOffset compOffset).2 ≠ compOffset →
        -50 < (smallCapAdjust u_c uVcc uBg bandgap value refOffset compOffset).2 ∧
          (smallCapAdjust u_c uVcc uBg bandgap value refOffset compOffset).2 < 50)) ∧
    (∀ u_c uVcc uBg bandgap : Nat, ∀ refOffset compOffset : Int,
      ((-50 < refCompOffsetDerived u_c uVcc uBg bandgap ∧
          refCompOffsetDerived u_c uVcc uBg bandgap < 50) →
        (refCapAdjust u_c uVcc uBg bandgap refOffset compOffset).2.1 =
          refCompOffsetDerived u_c uVcc uBg bandgap) ∧
      (¬ (-50 < refCompOffsetDerived u_c uVcc uBg bandgap ∧
          refCompOffsetDerived u_c uVcc uBg bandgap < 50) →
        (refCapAdjust u_c uVcc uBg bandgap refOffset compOffset).2.1 = compOffset) ∧
      ((refCapAdjust u_c uVcc uBg bandgap refOffset compOffset).2.1 ≠ compOffset →
        -50 < (refCapAdjust u_c uVcc uBg bandgap refOffset compOffset).2.1 ∧
          (refCapAdjust u_c uVcc uBg bandgap refOffset compOffset).2.1 < 50)) := by
  constructor
  · intro u_c uVcc uBg bandgap value refOffset compOffset
    have hs : (smallCapAdjust u_c uVcc uBg bandgap value refOffset compOffset).2 =
        if -50 < compOffsetDerived u_c uVcc uBg bandgap value ∧
            compOffsetDerived u_c uVcc uBg bandgap value < 50
        then compOffsetDerived u_c uVcc uBg bandgap value else compOffset := rfl
    by_cases h : -50 < compOffsetDerived u_c uVcc uBg bandgap value ∧
        compOffsetDerived u_c uVcc uBg bandgap value < 50
    · exact ⟨fun _ => by rw [hs, if_pos h], fun hn => absurd h hn,
        fun _ => by rw [hs, if_pos h]; exact h⟩
    · exact ⟨fun hc => absurd hc h, fun _ => by rw [hs, if_neg h],
        fun hne => absurd (by rw [hs, if_neg h]) hne⟩
  · intro u_c uVcc uBg bandgap refOffset compOffset
    have hs : (refCapAdjust u_c uVcc uBg bandgap refOffset compOffset).2.1 =
        if -50 < refCompOffsetDerived u_c uVcc uBg bandgap ∧
            refCompOffsetDerived u_c uVcc uBg bandgap < 50
        then refCompOffsetDerived u_c uVcc uBg bandgap else compOffset := rfl
    by_cases h : -50 < refCompOffsetDerived u_c uVcc uBg bandgap ∧
        refCompOffsetDerived u_c uVcc uBg bandgap < 50
    · exact ⟨fun _ => by rw [hs, if_pos h], fun hn => absurd h hn,
        fun _ => by rw [hs, if_pos h]; exact h⟩
    · exact ⟨fun hc => absurd hc h, fun _ => by rw [hs, if_neg h],
        fun hne => absurd (by rw [hs, if_neg h]) hne⟩

/-- C1: every `MeasureESR` run that passes its validity guard
(`Sum_2 > Sum_1`) computes the raw ESR as
`(RiL * 10) * (Sum_2 - Sum_1) / Sum_1` in hundredths of an ohm (shown
here under the no-overflow side conditions that the 16- and 32-bit
intermediates do not truncate, which hold for all physically possible
ADC sums and calibration values); when the raw value exceeds the stored
`RZero` the result is raw minus `RZero`, otherwise exactly 0 for a
capacitor comparing greater than 1000 uF and the `UINT16_MAX` sentinel
for any other capacitor. -/
theorem measureESR_raw_formula (env : ESREnv) (capValue : Nat) (capScale : Int)
    (riL rZero : Nat)
    (hd : env.dischargeOk = true) (ht : env.delayOk = true)
    (hg : 0 ≤ cmpValue capValue capScale 10 (-9))
    (hs : (esrSums env).1 < (esrSums env).2)
    (h1 : riL * 10 < 65536)
    (h2 : riL * 10 * ((esrSums env).2 - (esrSums env).1) < 4294967296)
    (h3 : riL * 10 * ((esrSums env).2 - (esrSums env).1) / (esrSums env).1 < 65536)
    (h4 : rZero < 65536) :
    measureESR env capValue capScale riL rZero =
      (if rZero < riL * 10 * ((esrSums env).2 - (esrSums env).1) / (esrSums env).1 then
        riL * 10 * ((esrSums env).2 - (esrSums env).1) / (esrSums env).1 - rZero
      else if 0 < cmpValue capValue capScale 1000 (-6) then 0
      else 65535) := by
  have hguard : ¬ cmpValue capValue capScale 10 (-9) < 0 := not_lt.mpr hg
  rw [measureESR, if_neg hguard, hd, ht]
  simp only [Bool.true_eq_false, if_false]
  rw [esrProcess, if_pos hs]
  simp only [u16, u32]
  rw [Nat.mod_eq_of_lt h1, Nat.mod_eq_of_lt h2, Nat.mod_eq_of_lt h3,
    Nat.mod_eq_of_lt h4]

/-- C1 witness: the environment `esrEnvA` (unloaded reads 10, loaded
reads 20, so `Sum_1 = 5101`, `Sum_2 = 10201`) with a 100 uF capacitor,
`RiL = 20` and `RZero = 20` gives `200 * 5100 / 5101 - 20 = 179`. -/
theorem measureESR_raw_formula_witness :
    measureESR esrEnvA 100 (-6) 20 20 = 179 := by
  have h := measureESR_raw_formula esrEnvA 100 (-6) 20 20 rfl rfl (by decide)
    (by decide) (by decide) (by decide) (by decide) (by decide)
  rw [h]
  decide

/-- C6: every `MeasureESR` run in which the accumulated loaded sum does
not exceed the accumulated unloaded sum at the end of the 255-iteration
loop returns the `UINT16_MAX` sentinel, never a negative or wrapped
value (the early-exit paths return the same sentinel). -/
theorem measureESR_sentinel (env : ESREnv) (capValue : Nat) (capScale : Int)
    (riL rZero : Nat)
    (h : (esrSums env).2 ≤ (esrSums env).1) :
    measureESR env capValue capScale riL rZero = 65535 := by
  rw [measureESR]
  split
  · rfl
  · split
    · rfl
    · split
      · rfl
      · rw [esrProcess, if_neg (not_lt.mpr h)]

/-- C6 witness: the environment `esrEnvB` (every conversion reads 7)
makes both sums equal, and the result is the sentinel. -/
theorem measureESR_sentinel_witness :
    measureESR esrEnvB 100 (-6) 20 20 = 65535 :=
  measureESR_sentinel esrEnvB 100 (-6) 20 20 (by decide)

/-- C2: a 1 ms-mode pass over the `large_cap:` block never takes the
`goto large_cap` restart; the restart is taken exactly when the
single-pulse over-1300 mV condition fires while the mode is still 10 ms
pulses (and the probes discharged); when the same condition fires in
1 ms mode the pass ends with `Flag = 2` ("capacitance too low"); and a
`LargeCap` call therefore executes the charge-and-measure attempt at
most twice, twice exactly when the first attempt restarted. -/
theorem largeCap_restart_once (env : LCEnv) (cfl cfm : Nat) (cap : CapRecord) :
    largeCapAttempt env cfl cfm false cap ≠ LCOut.restart ∧
    (largeCap env cfl cfm cap).2.1 ≤ 2 ∧
    ((largeCap env cfl cfm cap).2.1 = 2 ↔
      largeCapAttempt env cfl cfm true cap = LCOut.restart) ∧
    (largeCapAttempt env cfl cfm true cap = LCOut.restart ↔
      (env.dischargeOk true = true ∧ (chargeLoop env true).1 = 1 ∧
        1300 < (chargeLoop env true).2)) ∧
    ((env.dischargeOk false = true ∧ (chargeLoop env false).1 = 1 ∧
        1300 < (chargeLoop env false).2) →
      largeCapAttempt env cfl cfm false cap =
        LCOut.done 2 (chargeLoop env false).1 cap) := by
  have hno : largeCapAttempt env cfl cfm false cap ≠ LCOut.restart := by
    rw [largeCapAttempt]
    split
    · simp
    · split
      · simp
      · split
        · simp
        · simp
  refine ⟨hno, ?_, ?_, ?_, ?_⟩
  · cases hT : largeCapAttempt env cfl cfm true cap with
    | restart =>
      cases hF : largeCapAttempt env cfl cfm false cap with
      | restart => exact absurd hF hno
      | done f p r => simp [largeCap, hT, hF]
    | done f p r => simp [largeCap, hT]
  · cases hT : largeCapAttempt env cfl cfm true cap with
    | restart =>
      cases hF : largeCapAttempt env cfl cfm false cap with
      | restart => exact absurd hF hno
      | done f p r => simp [largeCap, hT, hF]
    | done f p r => simp [largeCap, hT]
  · cases hd : env.dischargeOk true with
    | false => simp [largeCapAttempt, hd]
    | true =>
      by_cases hc : (chargeLoop env true).1 = 1 ∧ 1300 < (chargeLoop env true).2
      · simp [largeCapAttempt, hd, hc]
      · rw [largeCapAttempt]
        simp only [hd, Bool.true_eq_false, if_false]
        rw [if_neg hc]
        split
        · simp [hc]
        · simp [hc]
  · intro hc
    rw [largeCapAttempt]
    simp only [hc.1, Bool.true_eq_false, if_false]
    rw [if_pos ⟨hc.2.1, hc.2.2⟩]
    simp

/-- The charge loop reaches exactly pulse 126 when no earlier stop
condition fires (all corrected voltages up to pulse 126 stay below
300 mV) and the corrected voltage is still below 75 mV at pulse 126. -/
theorem chargeGo_runs_to_126 (env : LCEnv) (m10 : Bool) (z : Int)
    (h300 : ∀ p, 1 ≤ p → p ≤ 126 → corrCap (env.readU m10 p) z < 300)
    (h75 : corrCap (env.readU m10 126) z < 75) :
    ∀ fuel p, p < 126 → 126 ≤ p + fuel →
      chargeGo env m10 z fuel p = (126, corrCap (env.readU m10 126) z) := by
  intro fuel
  induction fuel with
  | zero => intro p h1 h2; omega
  | succ n ih =>
    intro p h1 h2
    rw [chargeGo]
    by_cases h126 : p + 1 = 126
    · rw [if_pos (Or.inl ⟨h126, by rw [h126]; exact h75⟩), h126]
    · have hu : corrCap (env.readU m10 (p + 1)) z < 300 :=
        h300 (p + 1) (by omega) (by omega)
      rw [if_neg (by push_neg; exact ⟨fun h => absurd h h126, by omega, by omega⟩)]
      exact ih (p + 1) (by omega) (by omega)

/-- C9: besides the 500-pulse budget and the 300 mV threshold,
`LargeCap`'s charge loop exits early at exactly 126 pulses when the
offset-corrected capacitor voltage is still below 75 mV, and the call
then returns "capacitance too high" (`Flag = 1`) after a single attempt
of only 126 pulses. -/
theorem largeCap_early_exit_126 (env : LCEnv) (cfl cfm : Nat) (cap : CapRecord)
    (hd : env.dischargeOk true = true)
    (h300 : ∀ p, 1 ≤ p → p ≤ 126 →
      corrCap (env.readU true p) (lcUZero env true) < 300)
    (h75 : corrCap (env.readU true 126) (lcUZero env true) < 75) :
    largeCap env cfl cfm cap = (1, 1, 126, cap) := by
  have hloop : chargeLoop env true =
      (126, corrCap (env.readU true 126) (lcUZero env true)) :=
    chargeGo_runs_to_126 env true (lcUZero env true) h300 h75 500 0
      (by omega) (by omega)
  have hatt : largeCapAttempt env cfl cfm true cap = LCOut.done 1 126 cap := by
    rw [largeCapAttempt]
    simp only [hd, Bool.true_eq_false, if_false]
    rw [hloop]
    dsimp only
    rw [if_neg (by omega), if_pos (by omega)]
  simp [largeCap, hatt]

/-- C9 witness: in the all-zero environment `lcEnvA` every corrected
voltage is 0 mV, so the loop stops at pulse 126 and `LargeCap` returns
`Flag = 1` after one attempt of 126 pulses. -/
theorem largeCap_early_exit_126_witness :
    largeCap lcEnvA 0 0 capRecA = (1, 1, 126, capRecA) :=
  largeCap_early_exit_126 lcEnvA 0 0 capRecA rfl
    (fun _ _ _ => (by decide : corrCap 0 (lcUZero lcEnvA true) < 300))
    (by decide)

/-- When the timer loop ends without a capture, its overflow counter is
exactly the budget: the only capture-free exit is
`Ticks2 == CPU_FREQ / 5000`. -/
theorem timerLoop_timeout_count (flags : Nat → Bool × Bool) (budget : Nat) :
    ∀ fuel i t2 t2x lf,
      timerLoop flags budget fuel i t2 = some (false, t2x, lf) → t2x = budget := by
  intro fuel
  induction fuel with
  | zero =>
    intro i t2 t2x lf h
    simp [timerLoop] at h
  | succ n ih =>
    intro i t2 t2x lf h
    rw [timerLoop] at h
    split at h
    · simp at h
    · split at h
      · split at h
        · next heq =>
            simp only [Option.some.injEq, Prod.mk.injEq] at h
            rw [← h.2.1]
            exact heq
        · exact ih _ _ _ _ h
      · exact ih _ _ _ _ h

/-- C3: every `SmallCap` run in which the comparator capture event never
occurs before the overflow counter reaches the budget of
`CPU_FREQ / 5000` overflows returns 1 ("capacitance too high") and
writes none of the capacitor record's fields, nor the calibration store
(the bound `CPU_FREQ / 5000 < 65535` keeps the `uint16_t` overflow
counter from wrapping and is satisfied by every AVR clock rate). -/
theorem smallCap_timeout_no_write (env : SCEnv) (nv : Calib)
    (cpuFreq capFactorSmall fuel : Nat) (cap : CapRecord)
    (t2x : Nat) (lf : Bool × Bool)
    (hd : env.dischargeOk = true)
    (hb : cpuFreq / 5000 < 65535)
    (hl : timerLoop env.flags (cpuFreq / 5000) fuel 0 0 = some (false, t2x, lf)) :
    smallCap env nv cpuFreq capFactorSmall fuel cap = some (1, cap, nv) := by
  have ht2 : t2x = cpuFreq / 5000 :=
    timerLoop_timeout_count env.flags (cpuFreq / 5000) fuel 0 0 t2x lf hl
  rw [smallCap, hd]
  simp only [Bool.true_eq_false, if_false, hl]
  have hge : cpuFreq / 5000 ≤
      (if u16 env.icr < u16 env.tcnt ∧ lf.2 then u16 (t2x + 1) else t2x) := by
    subst ht2
    split
    · unfold u16
      omega
    · omega
  rw [if_pos hge]

/-- C3 witness: in `scEnvA` the flags always show an overflow and never
a capture; with a 1 MHz clock the budget is 200 overflows, the loop times
out, and the record and calibration store are returned unchanged. -/
theorem smallCap_timeout_no_write_witness :
    smallCap scEnvA calibA 1000000 0 250 capRecB = some (1, capRecB, calibA) :=
  smallCap_timeout_no_write scEnvA calibA 1000000 0 250 capRecB 200
    (false, true) rfl (by decide) (by decide)

/-- C4: whenever a diode was already recorded between the two probes
with a forward voltage below 1500 mV, `MeasureCap` returns before
running either capacitance estimator, leaving the capacitor record at
its reset defaults (`A = 0`, `B = 0`, `Scale = -12`, `Raw = 0`,
`Value = 0`, `I_leak_Value = 0`) and `Check.Found` unchanged. -/
theorem measureCap_diode_skip (env : MCEnv)
    (compError compResistor compDiode compCapacitor : Nat)
    (runLarge runSmall : CapRecord → Nat × CapRecord)
    (p1 p2 : Nat) (cap : CapRecord) (vf : Nat)
    (hdio : env.diode = some vf) (hvf : vf < 1500) :
    measureCap env compError compResistor compDiode compCapacitor
      runLarge runSmall p1 p2 cap =
      ({ cap with
          A := 0
          B := 0
          Scale := -12
          Raw := 0
          Value := 0
          ILeakValue := 0 }, false, false, env.found) := by
  simp only [measureCap]
  by_cases h1 : env.found = compError
  · simp [h1]
  · by_cases h2 : env.found = compResistor ∧
        resistorScan p1 p2 env.resistors.length env.resistors 0 ≠ 100
    · simp [h1, h2]
    · simp [h1, h2, hdio, hvf]

/-- C4 witness: `mcEnvA` records a diode with a 700 mV forward voltage;
the record (entered with every field away from its default) comes back
reset and neither estimator oracle is invoked. -/
theorem measureCap_diode_skip_witness :
    measureCap mcEnvA 1 2 3 5 (fun c => (3, c)) (fun c => (3, c)) 0 2 capRecB =
      ({ capRecB with
          A := 0
          B := 0
          Scale := -12
          Raw := 0
          Value := 0
          ILeakValue := 0 }, false, false, mcEnvA.found) :=
  measureCap_diode_skip mcEnvA 1 2 3 5 (fun c => (3, c)) (fun c => (3, c))
    0 2 capRecB 700 rfl (by decide)

end CapC
